import Mathlib

/-!
Shallow embedding of the GraphEval hallucination-detection pipeline
(`grapheval` Python package) and proofs about it.

Conventions of the embedding:
* Python `float` scores and thresholds become `ℚ` (the decision rules only
  compare scores, and the constants 0.5 and 0.49 of the spec are exact decimals).
* Python `dict` becomes an insertion-ordered association list
  `List (String × _)` with first-match lookup; `dict.get(k, d)` becomes
  `dictGetD`, `dict.setdefault` appends when the key is absent.
* Python exceptions (`raise ValueError`) become `Except String _`.
* Injected backends (LLM client, NLI client, `json.loads`) become function
  parameters; everything downstream of them is translated from the source.
-/

namespace GraphEval

/-- Models `grapheval.models.entities.MentionSpan`: character-offset span. -/
structure MentionSpan where
  start : Nat
  stop : Nat
deriving DecidableEq

/-- Models `grapheval.models.entities.Entity`: `text`, optional `type`, optional
`id`, list of mentions (defaults: `None`, `None`, `[]` in the dataclass). -/
structure Entity where
  text : String
  type : Option String
  id : Option String
  mentions : List MentionSpan
deriving DecidableEq

/-- Builds `Entity(text=t)` with the dataclass defaults for the other fields. -/
def Entity.ofText (t : String) : Entity :=
  ⟨t, none, none, []⟩

/-- Builds `Entity(text=t, type=ty)` with defaults for `id` and `mentions`. -/
def Entity.ofTextType (t : String) (ty : Option String) : Entity :=
  ⟨t, ty, none, []⟩

/-- Models `grapheval.models.entities.RelationTriple`: head, relation, tail,
confidence (dataclass default `1.0`). -/
structure RelationTriple where
  head : Entity
  relation : String
  tail : Entity
  confidence : ℚ
deriving DecidableEq

/-- Builds `RelationTriple(head=h, relation=r, tail=t)` using the dataclass
default `confidence=1.0`. -/
def RelationTriple.mkDefault (h : Entity) (r : String) (t : Entity) : RelationTriple :=
  ⟨h, r, t, 1⟩

/-- Models `grapheval.hallucination_detection.nli_client.NLIResult`: a label and a
score dictionary keyed by label name. -/
structure NLIResult where
  label : String
  scores : List (String × ℚ)
deriving DecidableEq

/-- Python `scores.get(key, d)` on the association-list model of a dict. -/
def dictGetD : List (String × ℚ) → String → ℚ → ℚ
  | [], _, d => d
  | p :: ps, key, d => if p.1 = key then p.2 else dictGetD ps key d

/-- Models `grapheval.hallucination_detection.detector.TripleNLIJudgement`. -/
structure TripleNLIJudgement where
  triple : RelationTriple
  nli_result : NLIResult
  is_hallucination : Bool
deriving DecidableEq

/-- Models `detector.verbalize_triple`: `f"{triple.head.text} {triple.relation} {triple.tail.text}."`
(note the trailing period). -/
def verbalize_triple (t : RelationTriple) : String :=
  t.head.text ++ " " ++ t.relation ++ " " ++ t.tail.text ++ "."

/-- Default value of `contradiction_threshold` in the Python signature of
`detect_hallucinations` (`float = 0.5`). -/
def default_contradiction_threshold : ℚ := ⟨1, 2, by decide, by decide⟩

/-- Default value of `neutral_threshold` in the Python signature of
`detect_hallucinations` (`float = 0.5`). -/
def default_neutral_threshold : ℚ := ⟨1, 2, by decide, by decide⟩

/-- Models `detector.detect_hallucinations`. The NLI client is abstracted to its
`classify_batch` method, a function from premise/hypothesis pairs to
`NLIResult`s (the backend contract: one result per pair, order-preserving). -/
def detect_hallucinations (triples : List RelationTriple) (context : String)
    (classify_batch : List (String × String) → List NLIResult)
    (contradiction_threshold neutral_threshold : ℚ) : List TripleNLIJudgement :=
  let hypotheses := triples.map verbalize_triple
  let pairs := hypotheses.map (fun h => (context, h))
  let results := classify_batch pairs
  (triples.zip results).map fun tr =>
    let contradiction_score := dictGetD tr.2.scores "contradiction" 0
    let neutral_score := dictGetD tr.2.scores "neutral" 0
    { triple := tr.1
      nli_result := tr.2
      is_hallucination :=
        decide (contradiction_threshold ≤ contradiction_score)
          || decide (neutral_threshold ≤ neutral_score) }

/-- Models `detect_hallucinations` invoked with both thresholds left at their
Python defaults (as `GraphEvalPipeline.run` does). -/
def detect_hallucinations_default (triples : List RelationTriple) (context : String)
    (classify_batch : List (String × String) → List NLIResult) : List TripleNLIJudgement :=
  detect_hallucinations triples context classify_batch
    default_contradiction_threshold default_neutral_threshold

/-- Tests whether `pat` matches at the start of `s` (used to model substring search; a
Boolean, computable recursion on both lists). -/
def startsWithChars : List Char → List Char → Bool
  | [], _ => true
  | _ :: _, [] => false
  | p :: ps, c :: cs => p = c && startsWithChars ps cs

/-- Fueled core of Python `str.replace` for a nonempty pattern: scan left to
right, replace every non-overlapping occurrence of `pat` by `rep`. Fuel
`s.length + 1` always suffices because each step consumes at least one
character of `s`. -/
def replaceChars (fuel : Nat) (pat rep s : List Char) : List Char :=
  match fuel, s with
  | 0, s => s
  | _ + 1, [] => []
  | fuel + 1, c :: rest =>
    if startsWithChars pat (c :: rest) then
      rep ++ replaceChars fuel pat rep ((c :: rest).drop pat.length)
    else
      c :: replaceChars fuel pat rep rest

/-- Python `s.replace(pat, rep)` (all occurrences, left to right,
non-overlapping; an empty pattern inserts `rep` at every gap, matching
the behavior of CPython). -/
def pyReplace (s pat rep : String) : String :=
  match pat.data with
  | [] => ⟨rep.data ++ s.data.flatMap (fun c => c :: rep.data)⟩
  | _ :: _ => ⟨replaceChars (s.data.length + 1) pat.data rep.data s.data⟩

/-- Python `s.strip()`: remove leading and trailing whitespace (modeled with
`Char.isWhitespace`; kernel-computable, unlike `String.trim`). -/
def pyStrip (s : String) : String :=
  ⟨((s.data.dropWhile Char.isWhitespace).reverse.dropWhile Char.isWhitespace).reverse⟩

/-- Models `grapheval.hallucination_correction.replacer.triple_to_sentence`:
`f"{triple.head.text} {triple.relation} {triple.tail.text}"` — no trailing
period, unlike `verbalize_triple` in the detector. -/
def triple_to_sentence (t : RelationTriple) : String :=
  t.head.text ++ " " ++ t.relation ++ " " ++ t.tail.text

/-- The loop body of `replacer.replace_triples`. -/
def replaceStep (acc : String) (pair : RelationTriple × RelationTriple) : String :=
  let old_sentence := triple_to_sentence pair.1
  let new_sentence := triple_to_sentence pair.2
  if old_sentence = "" then acc
  else pyReplace acc old_sentence new_sentence

/-- Models `replacer.replace_triples`: raises `ValueError` on a length mismatch,
otherwise folds the sequential replacement over the zipped pairs. -/
def replace_triples (original_output : String)
    (hallucinations corrected_triples : List RelationTriple) :
    Except String String :=
  if hallucinations.length ≠ corrected_triples.length then
    .error "hallucinations and corrected_triples must have the same length"
  else
    .ok ((hallucinations.zip corrected_triples).foldl replaceStep original_output)

/-- One decoded record of the `"entities"` array consumed by
`llm_extractor.parse_extraction_response`. `text` is `none` when the key is
absent (Python `item.get("text", "")` then yields `""`); `type` models
`item.get("type")`. -/
structure EntityRecord where
  text : Option String
  type : Option String
deriving DecidableEq

/-- One decoded record of the `"triples"` array. `head`/`relation`/`tail`
are `none` when the key is absent. A `confidence` field is carried to model
sources that supply one; `parse_extraction_response` never reads it. -/
structure TripleRecord where
  head : Option String
  relation : Option String
  tail : Option String
  confidence : Option ℚ
deriving DecidableEq

/-- The decoded JSON object handed to `parse_extraction_response`
(`data.get("entities", [])` and `data.get("triples", [])` already applied:
a missing key is the empty list). -/
structure ExtractionPayload where
  entities : List EntityRecord
  triples : List TripleRecord
deriving DecidableEq

/-- Models `llm_extractor.ExtractionResult`. -/
structure ExtractionResult where
  entities : List Entity
  triples : List RelationTriple
deriving DecidableEq

/-- Key lookup in the insertion-ordered dict `entities_by_text`. -/
def dictFind : List (String × Entity) → String → Option Entity
  | [], _ => none
  | p :: ps, k => if p.1 = k then some p.2 else dictFind ps k

/-- Loop body of the first loop of `parse_extraction_response`: trim the
record text, skip when empty, insert `Entity(text=text, type=ent_type)`
when the key is new (never overwriting). -/
def insertEntityRecord (m : List (String × Entity)) (item : EntityRecord) :
    List (String × Entity) :=
  let text := pyStrip (item.text.getD "")
  if text = "" then m
  else
    match dictFind m text with
    | some _ => m
    | none => m ++ [(text, Entity.ofTextType text item.type)]

/-- Python `entities_by_text.setdefault(text, Entity(text=text))`: returns
the updated dict together with the entity now stored under `text`. -/
def setdefaultEntity (m : List (String × Entity)) (text : String) :
    List (String × Entity) × Entity :=
  match dictFind m text with
  | some e => (m, e)
  | none => (m ++ [(text, Entity.ofText text)], Entity.ofText text)

/-- Loop body of the second loop of `parse_extraction_response`: skip the
record when any of head/tail/relation is empty after trimming, otherwise
`setdefault` both entities and append the triple (dataclass default
confidence 1.0). -/
def insertTripleRecord (st : List (String × Entity) × List RelationTriple)
    (item : TripleRecord) : List (String × Entity) × List RelationTriple :=
  let head_text := pyStrip (item.head.getD "")
  let tail_text := pyStrip (item.tail.getD "")
  let relation := pyStrip (item.relation.getD "")
  if head_text = "" ∨ tail_text = "" ∨ relation = "" then st
  else
    let p1 := setdefaultEntity st.1 head_text
    let p2 := setdefaultEntity p1.1 tail_text
    (p2.1, st.2 ++ [RelationTriple.mkDefault p1.2 relation p2.2])

/-- Models `llm_extractor.parse_extraction_response`, after JSON decoding (the
Normalizer): builds the insertion-ordered `entities_by_text` dict and the
triple list, then returns `ExtractionResult(entities=list(values), triples)`. -/
def parse_extraction_response (payload : ExtractionPayload) : ExtractionResult :=
  let m0 := payload.entities.foldl insertEntityRecord []
  let st := payload.triples.foldl insertTripleRecord (m0, [])
  ⟨st.1.map (fun p => p.2), st.2⟩

/-- The entity surface texts a payload offers, in processing order: the
trimmed nonempty texts of the entity records, then, for each accepted triple
record, its trimmed head text followed by its trimmed tail text. -/
def candidateTexts (payload : ExtractionPayload) : List String :=
  (payload.entities.filterMap fun item =>
    let t := pyStrip (item.text.getD "")
    if t = "" then none else some t)
  ++ payload.triples.flatMap fun item =>
      let h := pyStrip (item.head.getD "")
      let t := pyStrip (item.tail.getD "")
      let r := pyStrip (item.relation.getD "")
      if h = "" ∨ t = "" ∨ r = "" then [] else [h, t]

/-- Append `t` unless already present: one insertion step of first-seen
deduplication. -/
def keyStep (acc : List String) (t : String) : List String :=
  if t ∈ acc then acc else acc ++ [t]

/-- First-occurrence deduplication of a list of texts, preserving the order
in which each text was first seen. -/
def firstOccurrences (l : List String) : List String :=
  l.foldl keyStep []

/-- An entity record survives normalization iff its trimmed text is nonempty. -/
def validEntityRecord (item : EntityRecord) : Bool :=
  pyStrip (item.text.getD "") ≠ ""

/-- A triple record survives normalization iff head, tail and relation are
all nonempty after trimming. -/
def validTripleRecord (item : TripleRecord) : Bool :=
  ¬(pyStrip (item.head.getD "") = "" ∨ pyStrip (item.tail.getD "") = ""
    ∨ pyStrip (item.relation.getD "") = "")

/-- The decoded JSON object of a correction response consumed by
`corrector._parse_single_corrected_triple`. Each field is `none` when the
key is absent and otherwise holds the Python `str()` of the value. -/
structure CorrectionPayload where
  head : Option String
  relation : Option String
  tail : Option String
deriving DecidableEq

/-- Models `corrector._parse_single_corrected_triple`, after JSON decoding:
`str(data.get(k, fallback)).strip()` for each field, fresh entities carrying
the `type` of the original entities. -/
def parse_single_corrected_triple (data : CorrectionPayload)
    (original : RelationTriple) : RelationTriple :=
  let head_text := pyStrip (data.head.getD original.head.text)
  let relation_text := pyStrip (data.relation.getD original.relation)
  let tail_text := pyStrip (data.tail.getD original.tail.text)
  RelationTriple.mkDefault
    (Entity.ofTextType head_text original.head.type)
    relation_text
    (Entity.ofTextType tail_text original.tail.type)

/-- Models `corrector.CorrectedTriple`. -/
structure CorrectedTriple where
  original : RelationTriple
  corrected : RelationTriple
deriving DecidableEq

/-- Models `corrector.build_correction_prompt`. -/
def build_correction_prompt (triple : RelationTriple) (context : String) : String :=
  let triple_text :=
    triple.head.text ++ " " ++ triple.relation ++ " " ++ triple.tail.text ++ "."
  "You are a fact-checking assistant. Given a context paragraph and "
    ++ "a possibly hallucinated fact expressed as a triple, you will propose "
    ++ "a corrected triple that is consistent with the context.\n\n"
    ++ "Return ONLY a JSON object with keys: head, relation, tail.\n\n"
    ++ "Context:\n" ++ context ++ "\n\n"
    ++ "Original triple sentence:\n" ++ triple_text ++ "\n"

/-- Models `corrector.correct_hallucinations`: one LLM request per triple, in input
order; a JSON decode failure of any response is a `ValueError` that
propagates. `complete` models the LLM client, `decodeCorrection` models
`json.loads` on a correction response. -/
def correct_hallucinations (hallucinations : List RelationTriple) (context : String)
    (complete : String → String)
    (decodeCorrection : String → Except String CorrectionPayload) :
    Except String (List CorrectedTriple) :=
  hallucinations.mapM fun triple => do
    let raw := complete (build_correction_prompt triple context)
    let data ← decodeCorrection raw
    pure ⟨triple, parse_single_corrected_triple data triple⟩

/-- Models `llm_extractor.EXTRACTION_SYSTEM_PROMPT`. -/
def EXTRACTION_SYSTEM_PROMPT : String :=
  "You are an information extraction system. "
    ++ "Given an LLM answer, you will extract named entities and "
    ++ "semantic relations between them as JSON."

/-- Models `llm_extractor.build_extraction_prompt`. -/
def build_extraction_prompt (llm_output : String) : String :=
  EXTRACTION_SYSTEM_PROMPT ++ "\n\n"
    ++ "Return a JSON object with the following keys: \x27entities\x27 and \x27triples\x27.\n"
    ++ "- \x27entities\x27 is a list of objects with fields: text, type.\n"
    ++ "- \x27triples\x27 is a list of objects with fields: head, relation, tail.\n\n"
    ++ "Answer text:\n" ++ llm_output

/-- Models `llm_extractor.extract_kg_with_llm`: prompt, complete, decode, parse.
`decodeExtraction` models `json.loads` on the extraction response (failure
becomes the raised `ValueError`). -/
def extract_kg_with_llm (llm_output : String) (complete : String → String)
    (decodeExtraction : String → Except String ExtractionPayload) :
    Except String ExtractionResult :=
  match decodeExtraction (complete (build_extraction_prompt llm_output)) with
  | .error e => .error e
  | .ok payload => .ok (parse_extraction_response payload)

/-- Target shape of `GraphEvalPipeline._triple_to_dict`. -/
structure TripleDict where
  head : String
  relation : String
  tail : String
deriving DecidableEq

/-- Models `GraphEvalPipeline._triple_to_dict`. -/
def triple_to_dict (t : RelationTriple) : TripleDict :=
  ⟨t.head.text, t.relation, t.tail.text⟩

/-- Target shape of `GraphEvalPipeline._judgement_to_dict`. -/
structure JudgementDict where
  triple : TripleDict
  label : String
  scores : List (String × ℚ)
  is_hallucination : Bool
deriving DecidableEq

/-- Models `GraphEvalPipeline._judgement_to_dict`. -/
def judgement_to_dict (j : TripleNLIJudgement) : JudgementDict :=
  ⟨triple_to_dict j.triple, j.nli_result.label, j.nli_result.scores, j.is_hallucination⟩

/-- Target shape of `GraphEvalPipeline._corrected_to_dict`. -/
structure CorrectedDict where
  original : TripleDict
  corrected : TripleDict
deriving DecidableEq

/-- Models `pipeline.PipelineResult`. -/
structure PipelineResult where
  original_output : String
  kg_triples : List TripleDict
  hallucinated_triples : List JudgementDict
  corrected_triples : List CorrectedDict
  corrected_output : String
deriving DecidableEq

/-- Models `GraphEvalPipeline._corrected_to_dict`. -/
def corrected_to_dict (c : CorrectedTriple) : CorrectedDict :=
  ⟨triple_to_dict c.original, triple_to_dict c.corrected⟩

/-- Models `GraphEvalPipeline.run`, with the injected backends as function
parameters: `complete` is the LLM client (shared by extraction and
correction), `decodeExtraction`/`decodeCorrection` model `json.loads` at the
two decode sites, `classify_batch` is the NLI client. Detection runs with
the default thresholds, as in the source (no threshold arguments at the
call site). When `hallucinated_triples` is empty (Python list falsiness)
Correction and Repair are skipped. -/
def pipelineRun (complete : String → String)
    (decodeExtraction : String → Except String ExtractionPayload)
    (decodeCorrection : String → Except String CorrectionPayload)
    (classify_batch : List (String × String) → List NLIResult)
    (llm_output context : String) : Except String PipelineResult :=
  match extract_kg_with_llm llm_output complete decodeExtraction with
  | .error e => .error e
  | .ok extraction =>
    let triples := extraction.triples
    let judgements := detect_hallucinations_default triples context classify_batch
    let hallucinated_triples :=
      (judgements.filter fun j => j.is_hallucination).map fun j => j.triple
    let kg_triples_dicts := triples.map triple_to_dict
    let hallucinated_dicts :=
      (judgements.filter fun j => j.is_hallucination).map judgement_to_dict
    if hallucinated_triples.isEmpty then
      .ok ⟨llm_output, kg_triples_dicts, hallucinated_dicts, [], llm_output⟩
    else
      match correct_hallucinations hallucinated_triples context complete decodeCorrection with
      | .error e => .error e
      | .ok corrected_triple_objs =>
        match replace_triples llm_output hallucinated_triples
            (corrected_triple_objs.map fun c => c.corrected) with
        | .error e => .error e
        | .ok corrected_output =>
          .ok ⟨llm_output, kg_triples_dicts, hallucinated_dicts,
            corrected_triple_objs.map corrected_to_dict, corrected_output⟩

/-! ### REBEL output parser

`rebel_extractor.RebelExtractor._parse_rebel_output` first cleans the
decoded token stream (`<s>`, `</s>`, `<pad>` removed, `<triplet>` mapped to
`|`, then `strip()`), then iterates the regex
`([^<|]+)\s*<subj>\s*([^<]+)\s*<obj>\s*([^<]+?)(?=\s*(?:<subj>|\||$))`
with `re.finditer`. The scanner below reproduces the backtracking behavior
of that specific pattern deterministically:

* group 1 is the maximal run of characters other than `<` and `|` at the
  match start — the run must be followed immediately by `<subj>` (giving
  trailing whitespace back to the `\s*` never changes success, only moves
  whitespace out of the greedy group, and greediness keeps it in);
* between `<subj>` and `<obj>` lies the maximal run `r` of non-`<`
  characters, which must be nonempty and followed immediately by `<obj>`;
  the greedy `\s*` / `[^<]+` split captures `r` without its leading
  whitespace unless `r` is all whitespace, in which case backtracking
  leaves a single whitespace character in group 2;
* after `<obj>`, the greedy `\s*` takes the maximal whitespace run `w2`;
  the lazy group 3 is the shortest nonempty run of non-`<` characters
  whose lookahead `\s*(?:<subj>|\||$)` succeeds; when no such run exists,
  backtracking hands the last character of `w2` to group 3 provided the
  text after `w2` begins with `<subj>` or `|` or is empty;
* `re.finditer` advances one character on a failed attempt and resumes at
  the match end (here: the end of group 3, the lookahead is zero-width)
  on success. All matches are nonempty, so scanning always progresses.

Python `\s` is modeled by `Char.isWhitespace` (space, tab, CR, LF). -/

/-- The literal `<subj>` marker. -/
def subjMarker : List Char := "<subj>".data

/-- The literal `<obj>` marker. -/
def objMarker : List Char := "<obj>".data

/-- Models `pat` occurs as a contiguous substring of `s`. -/
def containsSub : List Char → List Char → Bool
  | [], pat => startsWithChars pat []
  | c :: rest, pat => startsWithChars pat (c :: rest) || containsSub rest pat

/-- The zero-width lookahead `(?=\s*(?:<subj>|\||$))`. -/
def lookOK (u : List Char) : Bool :=
  let v := u.dropWhile Char.isWhitespace
  v.isEmpty || startsWithChars subjMarker v || startsWithChars ['|'] v

/-- Lazy matching of group 3: the shortest nonempty prefix made of
non-`<` characters after which the lookahead succeeds. -/
def lazyGAux : List Char → List Char → Option (List Char)
  | _, [] => none
  | acc, c :: rest =>
    if c = '<' then none
    else if lookOK rest then some (acc ++ [c])
    else lazyGAux (acc ++ [c]) rest

/-- Shortest viable group-3 capture starting at `s`. -/
def lazyG (s : List Char) : Option (List Char) :=
  lazyGAux [] s

/-- One anchored attempt of the triplet regex at the start of `s`: on
success, the three captured groups and the rest of the text after the match
end. -/
def matchFrom (s : List Char) : Option ((List Char × List Char × List Char) × List Char) :=
  let a := s.takeWhile fun c => c != '<' && c != '|'
  if a.isEmpty then none
  else
    let s1 := s.drop a.length
    if startsWithChars subjMarker s1 then
      let t := s1.drop subjMarker.length
      let r := t.takeWhile fun c => c != '<'
      if r.isEmpty then none
      else
        let u := t.drop r.length
        if startsWithChars objMarker u then
          let s4 := u.drop objMarker.length
          let w2 := s4.takeWhile Char.isWhitespace
          let s5 := s4.drop w2.length
          let g2 :=
            let e := r.dropWhile Char.isWhitespace
            if e.isEmpty then r.drop (r.length - 1) else e
          match lazyG s5 with
          | some g => some ((a, g2, g), s5.drop g.length)
          | none =>
            if !w2.isEmpty
                && (s5.isEmpty || startsWithChars subjMarker s5
                    || startsWithChars ['|'] s5) then
              some ((a, g2, w2.drop (w2.length - 1)), s5)
            else none
        else none
    else none

/-- Models `re.finditer` over the cleaned text: try a match at each position,
resume after the match end on success, advance one character on failure.
Fuel `s.length + 1` suffices since every step consumes at least one
character. -/
def scanRebel (fuel : Nat) (s : List Char) :
    List (List Char × List Char × List Char) :=
  match fuel, s with
  | 0, _ => []
  | _ + 1, [] => []
  | fuel + 1, c :: rest =>
    match matchFrom (c :: rest) with
    | some (caps, remainder) => caps :: scanRebel fuel remainder
    | none => scanRebel fuel rest

/-- The per-capture cleanup in `_parse_rebel_output`: `strip()` at capture
time, then `replace("|", "")` and a final `strip()`. -/
def cleanCapture (g : List Char) : String :=
  pyStrip (pyReplace (pyStrip (String.mk g)) "|" "")

/-- One parsed triplet record (Python dict with keys `head`, `type`,
`tail`). -/
structure RebelRecord where
  head : String
  type : String
  tail : String
deriving DecidableEq

/-- The preprocessing of `_parse_rebel_output`: remove framing/padding
tokens, map the triplet-start marker to `|`, strip. -/
def cleanRebelText (text : String) : String :=
  pyStrip (pyReplace (pyReplace (pyReplace (pyReplace text "<s>" "") "</s>" "")
    "<pad>" "") "<triplet>" "|")

/-- Models `RebelExtractor._parse_rebel_output`: clean, scan, clean each captured
group, keep a record only when head, tail and relation are all nonempty. -/
def parse_rebel_output (text : String) : List RebelRecord :=
  let cleaned := (cleanRebelText text).data
  (scanRebel (cleaned.length + 1) cleaned).filterMap fun caps =>
    let head := cleanCapture caps.1
    let tail := cleanCapture caps.2.1
    let relation_type := cleanCapture caps.2.2
    if head ≠ "" ∧ tail ≠ "" ∧ relation_type ≠ "" then
      some ⟨head, relation_type, tail⟩
    else none

/-! ### Concrete fixtures used by the examples and witnesses -/

/-- Entity with surface text `X`. -/
def exX : Entity := Entity.ofText "X"

/-- Entity with surface text `Y`. -/
def exY : Entity := Entity.ofText "Y"

/-- The triple `(X, wrote, Y)`. -/
def exWroteTriple : RelationTriple := RelationTriple.mkDefault exX "wrote" exY

/-- The triple `(X, authored, Y)`. -/
def exAuthoredTriple : RelationTriple := RelationTriple.mkDefault exX "authored" exY

/-- Score distribution with `contradiction = 0.5`, `neutral = 0.0`. -/
def exBoundaryHigh : NLIResult :=
  ⟨"contradiction", [("entailment", ⟨1, 2, by decide, by decide⟩),
    ("contradiction", ⟨1, 2, by decide, by decide⟩), ("neutral", 0)]⟩

/-- Score distribution with `contradiction = 0.49`, `neutral = 0.49`. -/
def exBoundaryLow : NLIResult :=
  ⟨"entailment", [("entailment", ⟨1, 2, by decide, by decide⟩),
    ("contradiction", ⟨49, 100, by decide, by decide⟩),
    ("neutral", ⟨49, 100, by decide, by decide⟩)]⟩

/-- An NLI backend answering `exBoundaryHigh` for a single pair. -/
def exClassifyHigh : List (String × String) → List NLIResult := fun _ => [exBoundaryHigh]

/-- An NLI backend answering `exBoundaryLow` for a single pair. -/
def exClassifyLow : List (String × String) → List NLIResult := fun _ => [exBoundaryLow]

/-- The judgement `detect_hallucinations` produces for `exWroteTriple` under
`exClassifyHigh`. -/
def exJudgementHigh : TripleNLIJudgement := ⟨exWroteTriple, exBoundaryHigh, true⟩

/-- A triple whose head text carries surrounding whitespace and whose head
entity has a stable id and a mention span. -/
def exPaddedTriple : RelationTriple :=
  ⟨⟨" Napoleon I ", some "PER", some "e1", [⟨3, 11⟩]⟩, "succeeded",
    Entity.ofText "Louis XVI", 1⟩

/-- A correction response that decodes to an object containing only the
`relation` key. -/
def exRelationOnlyPayload : CorrectionPayload := ⟨none, some "succeeded", none⟩

/-- A decoded extraction response with one typed entity and one triple. -/
def exExtractionPayload : ExtractionPayload :=
  ⟨[⟨some "A", some "T"⟩], [⟨some "A", some "r", some "B", none⟩]⟩

/-- An extraction decoder that always succeeds with `exExtractionPayload`. -/
def exDecodeExtraction : String → Except String ExtractionPayload :=
  fun _ => .ok exExtractionPayload

/-- A correction decoder that always fails (never consulted in the
no-hallucination runs it is used for). -/
def exDecodeCorrectionFail : String → Except String CorrectionPayload :=
  fun _ => .error "no corrections expected"

/-- An NLI backend returning `entailment = 1.0` for every submitted pair. -/
def exEntailClassify : List (String × String) → List NLIResult :=
  fun pairs => pairs.map fun _ =>
    ⟨"entailment", [("entailment", 1), ("contradiction", 0), ("neutral", 0)]⟩

/-- A trivial LLM completion backend. -/
def exComplete : String → String := fun _ => ""

/-- The result `pipelineRun` produces from the no-hallucination fixtures. -/
def exPipelineResult : PipelineResult :=
  ⟨"out", [⟨"A", "r", "B"⟩], [], [], "out"⟩

/-- Key-level effect of `insertEntityRecord`: the dict keys after one
entity record. -/
def entityKeyStep (keys : List String) (item : EntityRecord) : List String :=
  let t := pyStrip (item.text.getD "")
  if t = "" then keys else keyStep keys t

/-- Key-level effect of `insertTripleRecord`: the dict keys after one triple
record. -/
def tripleKeyStep (keys : List String) (item : TripleRecord) : List String :=
  let h := pyStrip (item.head.getD "")
  let t := pyStrip (item.tail.getD "")
  let r := pyStrip (item.relation.getD "")
  if h = "" ∨ t = "" ∨ r = "" then keys else keyStep (keyStep keys h) t

/-- Invariant of the `entities_by_text` dict: every stored entity has the
key as its surface text. -/
def goodMap (m : List (String × Entity)) : Prop :=
  ∀ p ∈ m, (p.2).text = p.1

/-- The triple the Normalizer produces from `exExtractionPayload`. -/
def exParsedTriple : RelationTriple :=
  ⟨⟨"A", some "T", none, []⟩, "r", ⟨"B", none, none, []⟩, 1⟩

end GraphEval

namespace GraphEval

/-! ### Claim C1 — threshold policy of the Judge -/

/-- **C1.** For every triple judged by `detect_hallucinations`, the verdict
flag `is_hallucination` is true iff `contradiction_score ≥
contradiction_threshold` or `neutral_score ≥ neutral_threshold` (both
inclusive); both thresholds default to `0.5`; under the defaults a triple
with `contradiction = 0.5, neutral = 0.0` is flagged and one with
`contradiction = 0.49, neutral = 0.49` is not. -/
theorem C1_threshold_policy :
    (∀ (triples : List RelationTriple) (context : String)
        (classify_batch : List (String × String) → List NLIResult)
        (ct nt : ℚ) (j : TripleNLIJudgement),
        j ∈ detect_hallucinations triples context classify_batch ct nt →
        (j.is_hallucination = true ↔
          ct ≤ dictGetD j.nli_result.scores "contradiction" 0
            ∨ nt ≤ dictGetD j.nli_result.scores "neutral" 0))
    ∧ default_contradiction_threshold = 1 / 2
    ∧ default_neutral_threshold = 1 / 2
    ∧ (detect_hallucinations_default [exWroteTriple] "ctx" exClassifyHigh).map
        TripleNLIJudgement.is_hallucination = [true]
    ∧ (detect_hallucinations_default [exWroteTriple] "ctx" exClassifyLow).map
        TripleNLIJudgement.is_hallucination = [false] := by
  refine ⟨?_, ?_, ?_, by decide, by decide⟩
  case refine_2 =>
    show Rat.mk' 1 2 (by decide) (by decide) = 1 / 2
    rw [Rat.mk'_eq_divInt, Rat.divInt_eq_div]; norm_num
  case refine_3 =>
    show Rat.mk' 1 2 (by decide) (by decide) = 1 / 2
    rw [Rat.mk'_eq_divInt, Rat.divInt_eq_div]; norm_num
  intro triples context classify_batch ct nt j hj
  unfold detect_hallucinations at hj
  simp only [List.mem_map] at hj
  obtain ⟨tr, -, rfl⟩ := hj
  simp only [Bool.or_eq_true, decide_eq_true_eq]

/-- Witness for C1: the single judgement produced for `exWroteTriple` under
`exClassifyHigh` satisfies the threshold equivalence. -/
theorem C1_threshold_policy_witness :
    exJudgementHigh ∈ detect_hallucinations [exWroteTriple] "ctx" exClassifyHigh
        default_contradiction_threshold default_neutral_threshold
    ∧ (exJudgementHigh.is_hallucination = true ↔
        default_contradiction_threshold
            ≤ dictGetD exJudgementHigh.nli_result.scores "contradiction" 0
          ∨ default_neutral_threshold
            ≤ dictGetD exJudgementHigh.nli_result.scores "neutral" 0) :=
  ⟨by decide,
    C1_threshold_policy.1 [exWroteTriple] "ctx" exClassifyHigh
      default_contradiction_threshold default_neutral_threshold
      exJudgementHigh (by decide)⟩

/-! ### Claim C2 — sequential literal repair -/

/-- **C2.** `replace_triples` rewrites the text pair by pair in input order:
each step performs the all-occurrences literal replacement of the original
verbalization (`"head relation tail"`, no trailing period) by the corrected
one in the text carried forward from the previous step, skipping a pair
whose original verbalization is empty; on the spec example the first
sentence is repaired and the second left untouched. -/
theorem C2_repair_sequential :
    (∀ (orig : String) (h c : RelationTriple) (hs cs : List RelationTriple),
        hs.length = cs.length →
        replace_triples orig (h :: hs) (c :: cs) =
          replace_triples
            (if triple_to_sentence h = "" then orig
              else pyReplace orig (triple_to_sentence h) (triple_to_sentence c))
            hs cs)
    ∧ (∀ orig : String, replace_triples orig [] [] = .ok orig)
    ∧ replace_triples "X wrote Y. Y wrote Z." [exWroteTriple] [exAuthoredTriple]
        = .ok "X authored Y. Y wrote Z." := by
  refine ⟨?_, ?_, by rfl⟩
  · intro orig h c hs cs hlen
    simp only [replace_triples, List.length_cons, hlen, ne_eq, not_true_eq_false,
      if_false, List.zip_cons_cons, List.foldl_cons]
    rfl
  · intro orig
    simp [replace_triples]

/-- Witness for C2: the first replacement step on the spec example, obtained
from the sequential decomposition at concrete inputs. -/
theorem C2_repair_sequential_witness :
    ([] : List RelationTriple).length = ([] : List RelationTriple).length
    ∧ replace_triples "X wrote Y. Y wrote Z." [exWroteTriple] [exAuthoredTriple]
        = replace_triples
            (if triple_to_sentence exWroteTriple = "" then "X wrote Y. Y wrote Z."
              else pyReplace "X wrote Y. Y wrote Z." (triple_to_sentence exWroteTriple)
                (triple_to_sentence exAuthoredTriple))
            [] [] :=
  ⟨rfl, C2_repair_sequential.1 "X wrote Y. Y wrote Z." exWroteTriple
    exAuthoredTriple [] [] rfl⟩

/-! ### Claim C6 — length-mismatch guard of the Repairer -/

/-- **C6.** Calling `replace_triples` with hallucination and correction
lists of different lengths raises the `ValueError` and produces no output. -/
theorem C6_length_mismatch_guard :
    ∀ (orig : String) (hs cs : List RelationTriple),
      hs.length ≠ cs.length →
      replace_triples orig hs cs
        = .error "hallucinations and corrected_triples must have the same length" := by
  intro orig hs cs h
  simp [replace_triples, h]

/-- Witness for C6: two hallucinated triples and one correction. -/
theorem C6_length_mismatch_guard_witness :
    [exWroteTriple, exWroteTriple].length ≠ [exAuthoredTriple].length
    ∧ replace_triples "some text" [exWroteTriple, exWroteTriple] [exAuthoredTriple]
        = .error "hallucinations and corrected_triples must have the same length" :=
  ⟨by decide,
    C6_length_mismatch_guard "some text" [exWroteTriple, exWroteTriple]
      [exAuthoredTriple] (by decide)⟩

/-! ### Claim C5 — correction fallback (corrected) -/

/-- **C5, counterexample.** The claim states that a missing field falls back
to the original field verbatim, so that a response containing only
`relation` yields head/tail text equal to the original texts. The code
applies `.strip()` to the fallback as well: for an original head text with
surrounding whitespace the corrected head text differs from the original. -/
theorem C5_counterexample :
    (parse_single_corrected_triple exRelationOnlyPayload exPaddedTriple).head.text
      ≠ exPaddedTriple.head.text := by
  decide

/-- **C5, amended.** Each of `head`, `relation`, `tail` that is missing from
the decoded correction response falls back to the trimmed value of the
original field (equal to the original field whenever it carries no
surrounding whitespace); the corrected head and tail entities inherit the
original entities' type while their `id` and `mentions` are reset to the
dataclass defaults (they are freshly constructed, not the original Entity
records). -/
theorem C5_correction_fallback :
    ∀ (data : CorrectionPayload) (original : RelationTriple),
      (data.head = none →
        (parse_single_corrected_triple data original).head.text
          = pyStrip original.head.text)
      ∧ (data.relation = none →
        (parse_single_corrected_triple data original).relation
          = pyStrip original.relation)
      ∧ (data.tail = none →
        (parse_single_corrected_triple data original).tail.text
          = pyStrip original.tail.text)
      ∧ (parse_single_corrected_triple data original).head.type = original.head.type
      ∧ (parse_single_corrected_triple data original).tail.type = original.tail.type
      ∧ (parse_single_corrected_triple data original).head.id = none
      ∧ (parse_single_corrected_triple data original).head.mentions = []
      ∧ (parse_single_corrected_triple data original).tail.id = none
      ∧ (parse_single_corrected_triple data original).tail.mentions = [] := by
  intro data original
  refine ⟨fun h => ?_, fun h => ?_, fun h => ?_, rfl, rfl, rfl, rfl, rfl, rfl⟩
  all_goals
    simp [parse_single_corrected_triple, h, Entity.ofTextType, RelationTriple.mkDefault]

/-- Witness for C5: a response containing only `relation`, applied to the
whitespace-padded original triple. -/
theorem C5_correction_fallback_witness :
    exRelationOnlyPayload.head = none
    ∧ (parse_single_corrected_triple exRelationOnlyPayload exPaddedTriple).head.text
        = pyStrip exPaddedTriple.head.text :=
  ⟨rfl, (C5_correction_fallback exRelationOnlyPayload exPaddedTriple).1 rfl⟩

end GraphEval

namespace GraphEval

/-! ### Claims C9 and C10 — normalization noise handling and confidence -/

/-- Folding a step function that fixes every element failing `p` equals
folding over the `p`-filtered list. -/
theorem foldl_eq_foldl_filter {α β : Type} (p : β → Bool) (g : α → β → α)
    (hg : ∀ a b, p b = false → g a b = a) :
    ∀ (l : List β) (a : α), l.foldl g a = (l.filter p).foldl g a := by
  intro l
  induction l with
  | nil => intro a; rfl
  | cons x xs ih =>
    intro a
    cases hpx : p x with
    | true =>
      simp only [List.foldl_cons, List.filter_cons, hpx, if_true]
      exact ih (g a x)
    | false =>
      simp only [List.foldl_cons, List.filter_cons, hpx, Bool.false_eq_true,
        if_false, hg a x hpx]
      exact ih a

/-- An entity record with empty trimmed text leaves the dict unchanged. -/
theorem insertEntityRecord_invalid (m : List (String × Entity)) (item : EntityRecord)
    (h : validEntityRecord item = false) : insertEntityRecord m item = m := by
  have ht : pyStrip (item.text.getD "") = "" := by
    simpa [validEntityRecord] using h
  simp [insertEntityRecord, ht]

/-- A triple record with a missing head, tail or relation leaves the state
unchanged. -/
theorem insertTripleRecord_invalid (st : List (String × Entity) × List RelationTriple)
    (item : TripleRecord) (h : validTripleRecord item = false) :
    insertTripleRecord st item = st := by
  have ht : pyStrip (item.head.getD "") = "" ∨ pyStrip (item.tail.getD "") = ""
      ∨ pyStrip (item.relation.getD "") = "" := by
    simp only [validTripleRecord, decide_eq_false_iff_not, not_not] at h
    exact h
  simp [insertTripleRecord, ht]

/-- **C9.** Candidate records missing head, tail, or relation text (after
trimming) and entity records with empty trimmed text are skipped silently:
normalization of any payload equals normalization of the payload restricted
to its valid records, so invalid records raise nothing and do not disturb
the processing of the remaining records. -/
theorem C9_noise_silently_skipped :
    ∀ payload : ExtractionPayload,
      parse_extraction_response payload
        = parse_extraction_response
            ⟨payload.entities.filter validEntityRecord,
              payload.triples.filter validTripleRecord⟩ := by
  intro payload
  unfold parse_extraction_response
  dsimp only
  rw [← foldl_eq_foldl_filter validEntityRecord insertEntityRecord
      insertEntityRecord_invalid payload.entities,
    ← foldl_eq_foldl_filter validTripleRecord insertTripleRecord
      insertTripleRecord_invalid payload.triples]

/-- Every triple appended by the normalization fold carries confidence 1. -/
theorem foldl_insertTripleRecord_confidence :
    ∀ (l : List TripleRecord) (st : List (String × Entity) × List RelationTriple),
      (∀ t ∈ st.2, t.confidence = 1) →
      ∀ t ∈ (l.foldl insertTripleRecord st).2, t.confidence = 1 := by
  intro l
  induction l with
  | nil => exact fun st h => h
  | cons it rest ih =>
    intro st h
    rw [List.foldl_cons]
    refine ih _ ?_
    intro t ht
    unfold insertTripleRecord at ht
    dsimp only at ht
    split at ht
    · exact h t ht
    · dsimp only at ht
      rcases List.mem_append.mp ht with h1 | h2
      · exact h t h1
      · obtain rfl := List.mem_singleton.mp h2
        rfl

/-- **C10.** Every triple in a normalization result has confidence exactly
1.0, and the normalizer ignores any confidence field supplied by the source
records: replacing all record confidences changes nothing. -/
theorem C10_confidence_never_propagated :
    ∀ payload : ExtractionPayload,
      (∀ t ∈ (parse_extraction_response payload).triples, t.confidence = 1)
      ∧ ∀ f : TripleRecord → Option ℚ,
          parse_extraction_response
            ⟨payload.entities,
              payload.triples.map fun it => ⟨it.head, it.relation, it.tail, f it⟩⟩
            = parse_extraction_response payload := by
  intro payload
  constructor
  · intro t ht
    refine foldl_insertTripleRecord_confidence payload.triples
      (payload.entities.foldl insertEntityRecord [], []) (by simp) t ?_
    exact ht
  · intro f
    have hstep : (fun (st : List (String × Entity) × List RelationTriple)
        (it : TripleRecord) =>
          insertTripleRecord st ⟨it.head, it.relation, it.tail, f it⟩)
        = insertTripleRecord := by
      funext st it
      cases it
      rfl
    simp only [parse_extraction_response, List.foldl_map, hstep]

/-- Witness for C10: the single triple normalized from
`exExtractionPayload` has confidence 1. -/
theorem C10_confidence_never_propagated_witness :
    exParsedTriple ∈ (parse_extraction_response exExtractionPayload).triples
    ∧ exParsedTriple.confidence = 1 :=
  ⟨by decide,
    (C10_confidence_never_propagated exExtractionPayload).1 exParsedTriple (by decide)⟩

end GraphEval

namespace GraphEval

/-! ### Claim C3 — entity deduplication invariants of the Normalizer -/

/-- A key is absent from the dict exactly when `dictFind` misses. -/
theorem dictFind_eq_none_iff :
    ∀ (m : List (String × Entity)) (k : String),
      dictFind m k = none ↔ k ∉ m.map Prod.fst := by
  intro m k
  induction m with
  | nil => simp [dictFind]
  | cons p ps ih =>
    by_cases h : p.1 = k
    · simp [dictFind, h]
    · simp [dictFind, h, ih, Ne.symm h]

/-- A found entity has the key as its text, on a `goodMap` dict. -/
theorem dictFind_some_text :
    ∀ (m : List (String × Entity)) (k : String) (e : Entity),
      goodMap m → dictFind m k = some e → e.text = k := by
  intro m
  induction m with
  | nil => intro k e _ h; cases h
  | cons p ps ih =>
    intro k e hg h
    unfold dictFind at h
    split at h
    · obtain rfl : p.2 = e := Option.some_injective _ h
      rename_i heq
      rw [hg p (List.mem_cons_self p ps), heq]
    · exact ih k e (fun q hq => hg q (List.mem_cons_of_mem p hq)) h

/-- Appending a text-keyed entity preserves the dict invariant. -/
theorem goodMap_append_single {m : List (String × Entity)} {k : String} {e : Entity}
    (hm : goodMap m) (he : e.text = k) : goodMap (m ++ [(k, e)]) := by
  intro p hp
  rcases List.mem_append.mp hp with h1 | h2
  · exact hm p h1
  · obtain rfl := List.mem_singleton.mp h2
    exact he

/-- The dict invariant survives one entity record. -/
theorem goodMap_insertEntityRecord {m : List (String × Entity)} (item : EntityRecord)
    (hm : goodMap m) : goodMap (insertEntityRecord m item) := by
  unfold insertEntityRecord
  dsimp only
  split
  · exact hm
  · split
    · exact hm
    · exact goodMap_append_single hm rfl

/-- The dict invariant survives a `setdefault`. -/
theorem goodMap_setdefaultEntity {m : List (String × Entity)} (t : String)
    (hm : goodMap m) : goodMap (setdefaultEntity m t).1 := by
  unfold setdefaultEntity
  split
  · exact hm
  · exact goodMap_append_single hm rfl

/-- The entity returned by `setdefault` has the requested text. -/
theorem setdefaultEntity_text {m : List (String × Entity)} (t : String)
    (hm : goodMap m) : ((setdefaultEntity m t).2).text = t := by
  unfold setdefaultEntity
  split
  · rename_i e heq
    exact dictFind_some_text m t e hm heq
  · rfl

/-- Key-level effect of a `setdefault`. -/
theorem setdefaultEntity_keys (m : List (String × Entity)) (t : String) :
    (setdefaultEntity m t).1.map Prod.fst = keyStep (m.map Prod.fst) t := by
  unfold setdefaultEntity keyStep
  cases h : dictFind m t with
  | none =>
    have ht : t ∉ m.map Prod.fst := (dictFind_eq_none_iff m t).mp h
    simp [ht]
  | some e =>
    have ht : t ∈ m.map Prod.fst := by
      by_contra hc
      rw [(dictFind_eq_none_iff m t).mpr hc] at h
      cases h
    simp [ht]

/-- Key-level effect of one entity record. -/
theorem insertEntityRecord_keys (m : List (String × Entity)) (item : EntityRecord) :
    (insertEntityRecord m item).map Prod.fst
      = entityKeyStep (m.map Prod.fst) item := by
  unfold insertEntityRecord entityKeyStep keyStep
  dsimp only
  split
  · rfl
  · cases h : dictFind m (pyStrip (item.text.getD "")) with
    | none =>
      have ht := (dictFind_eq_none_iff m _).mp h
      simp [ht]
    | some e =>
      have ht : pyStrip (item.text.getD "") ∈ m.map Prod.fst := by
        by_contra hc
        rw [(dictFind_eq_none_iff m _).mpr hc] at h
        cases h
      simp [ht]

/-- Key-level effect of one triple record. -/
theorem insertTripleRecord_keys (st : List (String × Entity) × List RelationTriple)
    (item : TripleRecord) :
    (insertTripleRecord st item).1.map Prod.fst
      = tripleKeyStep (st.1.map Prod.fst) item := by
  unfold insertTripleRecord tripleKeyStep
  dsimp only
  split
  · rfl
  · rw [setdefaultEntity_keys, setdefaultEntity_keys]

/-- Folding entity records over the dict acts on keys as folding
`entityKeyStep`. -/
theorem entities_fold_keys (l : List EntityRecord) (m : List (String × Entity)) :
    (l.foldl insertEntityRecord m).map Prod.fst
      = l.foldl entityKeyStep (m.map Prod.fst) :=
  (List.foldl_hom (List.map Prod.fst) insertEntityRecord entityKeyStep l m
    (fun x y => (insertEntityRecord_keys x y).symm)).symm

/-- Folding triple records over the state acts on keys as folding
`tripleKeyStep`. -/
theorem triples_fold_keys (l : List TripleRecord)
    (st : List (String × Entity) × List RelationTriple) :
    (l.foldl insertTripleRecord st).1.map Prod.fst
      = l.foldl tripleKeyStep (st.1.map Prod.fst) :=
  (List.foldl_hom (fun s => s.1.map Prod.fst) insertTripleRecord tripleKeyStep l st
    (fun x y => (insertTripleRecord_keys x y).symm)).symm

/-- Folding `entityKeyStep` is folding `keyStep` over the surviving texts. -/
theorem entityKeyStep_foldl_filterMap :
    ∀ (l : List EntityRecord) (keys : List String),
      l.foldl entityKeyStep keys
        = (l.filterMap fun item =>
            let t := pyStrip (item.text.getD "")
            if t = "" then none else some t).foldl keyStep keys := by
  intro l
  induction l with
  | nil => intro keys; rfl
  | cons item rest ih =>
    intro keys
    rw [List.foldl_cons, List.filterMap_cons]
    by_cases h : pyStrip (item.text.getD "") = ""
    · simp only [h, if_true, entityKeyStep]
      simpa [h] using ih keys
    · simp only [entityKeyStep, h, if_false]
      simpa [h] using ih (keyStep keys (pyStrip (item.text.getD "")))

/-- Folding `tripleKeyStep` is folding `keyStep` over the surviving
head/tail texts. -/
theorem tripleKeyStep_foldl_flatMap :
    ∀ (l : List TripleRecord) (keys : List String),
      l.foldl tripleKeyStep keys
        = (l.flatMap fun item =>
            let h := pyStrip (item.head.getD "")
            let t := pyStrip (item.tail.getD "")
            let r := pyStrip (item.relation.getD "")
            if h = "" ∨ t = "" ∨ r = "" then [] else [h, t]).foldl keyStep keys := by
  intro l
  induction l with
  | nil => intro keys; rfl
  | cons item rest ih =>
    intro keys
    rw [List.foldl_cons, List.flatMap_cons, List.foldl_append]
    by_cases h : pyStrip (item.head.getD "") = "" ∨ pyStrip (item.tail.getD "") = ""
        ∨ pyStrip (item.relation.getD "") = ""
    · simp only [tripleKeyStep, h, if_true]
      simpa [h] using ih keys
    · simp only [tripleKeyStep, h, if_false]
      simpa [h] using ih _

/-- One `keyStep` preserves dedup. -/
theorem keyStep_nodup {keys : List String} (t : String) (h : keys.Nodup) :
    (keyStep keys t).Nodup := by
  unfold keyStep
  split
  · exact h
  · rename_i ht
    simp [List.nodup_append, h, ht]

/-- Folding `keyStep` preserves dedup. -/
theorem foldl_keyStep_nodup :
    ∀ (l : List String) (keys : List String), keys.Nodup → (l.foldl keyStep keys).Nodup := by
  intro l
  induction l with
  | nil => exact fun keys h => h
  | cons t rest ih => exact fun keys h => ih (keyStep keys t) (keyStep_nodup t h)

/-- Membership in keys is preserved by `keyStep`. -/
theorem mem_keyStep_of_mem {keys : List String} {a : String} (t : String)
    (h : a ∈ keys) : a ∈ keyStep keys t := by
  unfold keyStep
  split
  · exact h
  · exact List.mem_append_left _ h

/-- The inserted key is a member after `keyStep`. -/
theorem mem_keyStep_self (keys : List String) (t : String) : t ∈ keyStep keys t := by
  unfold keyStep
  split
  · assumption
  · exact List.mem_append_right _ (List.mem_singleton.mpr rfl)

/-- The dict invariant and the head/tail-closure of accumulated triples
survive the whole triple-record fold. -/
theorem triples_fold_closure :
    ∀ (l : List TripleRecord) (st : List (String × Entity) × List RelationTriple),
      goodMap st.1 →
      (∀ tr ∈ st.2, tr.head.text ∈ st.1.map Prod.fst
        ∧ tr.tail.text ∈ st.1.map Prod.fst) →
      goodMap (l.foldl insertTripleRecord st).1
      ∧ ∀ tr ∈ (l.foldl insertTripleRecord st).2,
          tr.head.text ∈ (l.foldl insertTripleRecord st).1.map Prod.fst
          ∧ tr.tail.text ∈ (l.foldl insertTripleRecord st).1.map Prod.fst := by
  intro l
  induction l with
  | nil => exact fun st hg hc => ⟨hg, hc⟩
  | cons item rest ih =>
    intro st hg hc
    rw [List.foldl_cons]
    refine ih _ ?_ ?_
    · unfold insertTripleRecord
      dsimp only
      split
      · exact hg
      · exact goodMap_setdefaultEntity _ (goodMap_setdefaultEntity _ hg)
    · unfold insertTripleRecord
      dsimp only
      split
      · exact hc
      · intro tr htr
        rw [setdefaultEntity_keys, setdefaultEntity_keys]
        rcases List.mem_append.mp htr with h1 | h2
        · obtain ⟨hh, ht⟩ := hc tr h1
          exact ⟨mem_keyStep_of_mem _ (mem_keyStep_of_mem _ hh),
            mem_keyStep_of_mem _ (mem_keyStep_of_mem _ ht)⟩
        · obtain rfl := List.mem_singleton.mp h2
          refine ⟨?_, ?_⟩
          · show ((setdefaultEntity st.1 _).2).text ∈ _
            rw [setdefaultEntity_text _ hg]
            exact mem_keyStep_of_mem _ (mem_keyStep_self _ _)
          · show ((setdefaultEntity (setdefaultEntity st.1 _).1 _).2).text ∈ _
            rw [setdefaultEntity_text _ (goodMap_setdefaultEntity _ hg)]
            exact mem_keyStep_self _ _

/-- The entity fold produces a `goodMap` dict. -/
theorem entities_fold_goodMap :
    ∀ (l : List EntityRecord) (m : List (String × Entity)),
      goodMap m → goodMap (l.foldl insertEntityRecord m) := by
  intro l
  induction l with
  | nil => exact fun m h => h
  | cons item rest ih =>
    exact fun m h => ih _ (goodMap_insertEntityRecord item h)

/-- **C3.** For every input to the Normalizer: no two output entities share
equal text; every triple's head and tail text is the text of some output
entity; and the output entity texts are exactly the candidate surface texts
in first-seen (insertion) order. -/
theorem C3_entity_dedup_invariants :
    ∀ payload : ExtractionPayload,
      ((parse_extraction_response payload).entities.map Entity.text).Nodup
      ∧ (∀ tr ∈ (parse_extraction_response payload).triples,
          (∃ e ∈ (parse_extraction_response payload).entities, e.text = tr.head.text)
          ∧ (∃ e ∈ (parse_extraction_response payload).entities, e.text = tr.tail.text))
      ∧ (parse_extraction_response payload).entities.map Entity.text
          = firstOccurrences (candidateTexts payload) := by
  intro payload
  have hm0 : goodMap (payload.entities.foldl insertEntityRecord []) :=
    entities_fold_goodMap payload.entities [] (by intro p hp; cases hp)
  have hclosure := triples_fold_closure payload.triples
    (payload.entities.foldl insertEntityRecord [], []) hm0 (by intro tr htr; cases htr)
  have htexts : (parse_extraction_response payload).entities.map Entity.text
      = (payload.triples.foldl insertTripleRecord
          (payload.entities.foldl insertEntityRecord [], [])).1.map Prod.fst := by
    unfold parse_extraction_response
    dsimp only
    rw [List.map_map]
    exact List.map_congr_left fun p hp => hclosure.1 p hp
  have hkeys : (payload.triples.foldl insertTripleRecord
        (payload.entities.foldl insertEntityRecord [], [])).1.map Prod.fst
      = firstOccurrences (candidateTexts payload) := by
    rw [triples_fold_keys]
    dsimp only
    rw [entities_fold_keys]
    unfold firstOccurrences candidateTexts
    rw [List.foldl_append]
    rw [entityKeyStep_foldl_filterMap, tripleKeyStep_foldl_flatMap]
    rfl
  refine ⟨?_, ?_, htexts.trans hkeys⟩
  · rw [htexts, hkeys]
    unfold firstOccurrences
    exact foldl_keyStep_nodup _ [] List.nodup_nil
  · intro tr htr
    have hmem := hclosure.2 tr htr
    constructor
    · have : tr.head.text ∈ (parse_extraction_response payload).entities.map Entity.text := by
        rw [htexts]; exact hmem.1
      obtain ⟨e, he, hee⟩ := List.mem_map.mp this
      exact ⟨e, he, hee⟩
    · have : tr.tail.text ∈ (parse_extraction_response payload).entities.map Entity.text := by
        rw [htexts]; exact hmem.2
      obtain ⟨e, he, hee⟩ := List.mem_map.mp this
      exact ⟨e, he, hee⟩

/-- Witness for C3: the triple parsed from `exExtractionPayload` has its
head and tail texts among the output entities. -/
theorem C3_entity_dedup_invariants_witness :
    exParsedTriple ∈ (parse_extraction_response exExtractionPayload).triples
    ∧ ((∃ e ∈ (parse_extraction_response exExtractionPayload).entities,
          e.text = exParsedTriple.head.text)
        ∧ (∃ e ∈ (parse_extraction_response exExtractionPayload).entities,
          e.text = exParsedTriple.tail.text)) :=
  ⟨by decide,
    (C3_entity_dedup_invariants exExtractionPayload).2.1 exParsedTriple (by decide)⟩

end GraphEval

namespace GraphEval

/-! ### Claim C7 — one verdict per triple, positionally aligned -/

/-- Indexing a zip is the pairing of the indexings. -/
theorem zip_getElem? {α β : Type} :
    ∀ (l1 : List α) (l2 : List β) (i : Nat),
      (l1.zip l2)[i]? = l1[i]?.bind fun a => l2[i]?.map fun b => (a, b) := by
  intro l1
  induction l1 with
  | nil => intro l2 i; simp
  | cons a as ih =>
    intro l2 i
    cases l2 with
    | nil => simp
    | cons b bs =>
      cases i with
      | zero => simp [List.zip_cons_cons]
      | succ n => simpa [List.zip_cons_cons] using ih bs n

/-- **C7.** Under the backend contract that `classify_batch` returns one
distribution per submitted pair (order-preserving by position),
`detect_hallucinations` produces exactly one verdict per input triple, in
input order: the i-th verdict holds the i-th triple and the i-th returned
distribution. -/
theorem C7_positional_alignment :
    ∀ (triples : List RelationTriple) (context : String)
      (classify_batch : List (String × String) → List NLIResult) (ct nt : ℚ),
      (classify_batch ((triples.map verbalize_triple).map fun h => (context, h))).length
        = triples.length →
      (detect_hallucinations triples context classify_batch ct nt).length = triples.length
      ∧ ∀ i : Nat,
          ((detect_hallucinations triples context classify_batch ct nt)[i]?.map
            TripleNLIJudgement.triple) = triples[i]?
          ∧ ((detect_hallucinations triples context classify_batch ct nt)[i]?.map
              TripleNLIJudgement.nli_result)
            = (classify_batch ((triples.map verbalize_triple).map fun h => (context, h)))[i]? := by
  intro triples context classify_batch ct nt hlen
  set R := classify_batch ((triples.map verbalize_triple).map fun h => (context, h))
    with hRdef
  have hd : detect_hallucinations triples context classify_batch ct nt
      = (triples.zip R).map fun tr =>
          ⟨tr.1, tr.2,
            decide (ct ≤ dictGetD tr.2.scores "contradiction" 0)
              || decide (nt ≤ dictGetD tr.2.scores "neutral" 0)⟩ := rfl
  constructor
  · rw [hd, List.length_map, List.length_zip, hlen, inf_idem]
  · intro i
    rw [hd]
    rcases Nat.lt_or_ge i triples.length with hi | hi
    · have ht := List.getElem?_eq_getElem hi
      have hi2 : i < R.length := by rw [hlen]; exact hi
      have hr := List.getElem?_eq_getElem hi2
      refine ⟨?_, ?_⟩ <;> rw [List.getElem?_map, zip_getElem?, ht, hr] <;> rfl
    · have ht : triples[i]? = none := List.getElem?_eq_none hi
      have hi2 : R.length ≤ i := by rw [hlen]; exact hi
      have hr : R[i]? = none := List.getElem?_eq_none hi2
      refine ⟨?_, ?_⟩ <;> rw [List.getElem?_map, zip_getElem?, ht, hr] <;> rfl

/-- Witness for C7: a singleton batch, with the backend contract checked on
the concrete classifier. -/
theorem C7_positional_alignment_witness :
    (exClassifyHigh (([exWroteTriple].map verbalize_triple).map fun h => ("ctx", h))).length
      = [exWroteTriple].length
    ∧ (detect_hallucinations [exWroteTriple] "ctx" exClassifyHigh
        default_contradiction_threshold default_neutral_threshold).length
      = [exWroteTriple].length :=
  ⟨by decide,
    (C7_positional_alignment [exWroteTriple] "ctx" exClassifyHigh
      default_contradiction_threshold default_neutral_threshold (by decide)).1⟩

end GraphEval

namespace GraphEval

/-! ### Claim C4 — no-hallucination short-circuit of the orchestrator -/

/-- Under a classifier whose distributions stay strictly below both default
thresholds, no judgement is flagged. -/
theorem filter_hallucination_nil (context : String)
    (classify_batch : List (String × String) → List NLIResult)
    (hcl : ∀ pairs : List (String × String), ∀ r ∈ classify_batch pairs,
      dictGetD r.scores "contradiction" 0 < default_contradiction_threshold
      ∧ dictGetD r.scores "neutral" 0 < default_neutral_threshold) :
    ∀ triples : List RelationTriple,
      (detect_hallucinations_default triples context classify_batch).filter
        (fun j => j.is_hallucination) = [] := by
  intro triples
  rw [List.filter_eq_nil_iff]
  intro j hj
  unfold detect_hallucinations_default detect_hallucinations at hj
  simp only [List.mem_map] at hj
  obtain ⟨tr, htr, rfl⟩ := hj
  have hr : tr.2 ∈ classify_batch
      ((triples.map verbalize_triple).map fun h => (context, h)) :=
    (List.of_mem_zip htr).2
  obtain ⟨h1, h2⟩ := hcl _ _ hr
  simp only [Bool.or_eq_true, decide_eq_true_eq, not_or, not_le]
  exact ⟨h1, h2⟩

/-- **C4.** When no triple is judged a hallucination (for instance, under a
classifier that never reaches the default thresholds), Correction and
Repair are skipped: the run result has `corrected_output` equal to the
original `llm_output` verbatim and an empty `corrected_triples` list, and
the run does not depend on the correction decoder at all. -/
theorem C4_no_hallucination_short_circuit :
    ∀ (complete : String → String)
      (decodeExtraction : String → Except String ExtractionPayload)
      (decodeCorrection : String → Except String CorrectionPayload)
      (classify_batch : List (String × String) → List NLIResult),
      (∀ pairs : List (String × String), ∀ r ∈ classify_batch pairs,
        dictGetD r.scores "contradiction" 0 < default_contradiction_threshold
        ∧ dictGetD r.scores "neutral" 0 < default_neutral_threshold) →
      ∀ llm_output context : String,
        (∀ res : PipelineResult,
          pipelineRun complete decodeExtraction decodeCorrection classify_batch
              llm_output context = .ok res →
          res.corrected_output = llm_output ∧ res.corrected_triples = [])
        ∧ ∀ decodeCorrection₂ : String → Except String CorrectionPayload,
            pipelineRun complete decodeExtraction decodeCorrection₂ classify_batch
              llm_output context
            = pipelineRun complete decodeExtraction decodeCorrection classify_batch
                llm_output context := by
  intro complete decodeExtraction decodeCorrection classify_batch hcl llm_output context
  cases hE : decodeExtraction (complete (build_extraction_prompt llm_output)) with
  | error e =>
    have hrun : ∀ dC : String → Except String CorrectionPayload,
        pipelineRun complete decodeExtraction dC classify_batch llm_output context
          = .error e := by
      intro dC
      simp [pipelineRun, extract_kg_with_llm, hE]
    constructor
    · intro res h
      rw [hrun decodeCorrection] at h
      cases h
    · intro dC₂
      rw [hrun decodeCorrection, hrun dC₂]
  | ok payload =>
    have hfil := filter_hallucination_nil context classify_batch hcl
      (parse_extraction_response payload).triples
    have hrun : ∀ dC : String → Except String CorrectionPayload,
        pipelineRun complete decodeExtraction dC classify_batch llm_output context
          = .ok ⟨llm_output,
              (parse_extraction_response payload).triples.map triple_to_dict,
              [], [], llm_output⟩ := by
      intro dC
      simp [pipelineRun, extract_kg_with_llm, hE, hfil]
    constructor
    · intro res h
      rw [hrun decodeCorrection] at h
      obtain rfl := (Except.ok.injEq _ _).mp h.symm
      exact ⟨rfl, rfl⟩
    · intro dC₂
      rw [hrun decodeCorrection, hrun dC₂]

/-- Witness for C4: a concrete run with one extracted triple under an
entailment-only classifier yields the original text and no corrections. -/
theorem C4_no_hallucination_short_circuit_witness :
    (∀ pairs : List (String × String), ∀ r ∈ exEntailClassify pairs,
      dictGetD r.scores "contradiction" 0 < default_contradiction_threshold
      ∧ dictGetD r.scores "neutral" 0 < default_neutral_threshold)
    ∧ exPipelineResult.corrected_output = "out"
    ∧ exPipelineResult.corrected_triples = [] := by
  have hcl : ∀ pairs : List (String × String), ∀ r ∈ exEntailClassify pairs,
      dictGetD r.scores "contradiction" 0 < default_contradiction_threshold
      ∧ dictGetD r.scores "neutral" 0 < default_neutral_threshold := by
    intro pairs r hr
    obtain ⟨p, -, rfl⟩ := List.mem_map.mp hr
    exact ⟨by decide, by decide⟩
  refine ⟨hcl, ?_⟩
  exact (C4_no_hallucination_short_circuit exComplete exDecodeExtraction
    exDecodeCorrectionFail exEntailClassify hcl "out" "ctx").1 exPipelineResult rfl

end GraphEval

namespace GraphEval

/-! ### Claim C8 — robustness of the generative-output parser -/

/-- A pattern absent from `u` does not match at the start of `u`. -/
theorem notContains_startsWith {u pat : List Char}
    (h : containsSub u pat = false) : startsWithChars pat u = false := by
  cases u with
  | nil => exact h
  | cons c rest => exact (Bool.or_eq_false_iff.mp h).1

/-- Absence of a pattern is inherited by the tail. -/
theorem containsSub_tail {c : Char} {rest pat : List Char}
    (h : containsSub (c :: rest) pat = false) : containsSub rest pat = false :=
  (Bool.or_eq_false_iff.mp h).2

/-- Absence of a pattern is inherited by any drop. -/
theorem containsSub_drop :
    ∀ (n : Nat) (s pat : List Char), containsSub s pat = false →
      containsSub (s.drop n) pat = false := by
  intro n
  induction n with
  | zero => exact fun s pat h => h
  | succ n ih =>
    intro s pat h
    cases s with
    | nil => exact h
    | cons c rest => exact ih rest pat (containsSub_tail h)

/-- A text with no `<obj>` marker admits no match of the triplet pattern. -/
theorem matchFrom_eq_none {s : List Char}
    (h : containsSub s objMarker = false) : matchFrom s = none := by
  have hgen : ∀ n m k : Nat,
      startsWithChars objMarker (List.drop k (List.drop m (List.drop n s))) = false :=
    fun n m k => notContains_startsWith
      (containsSub_drop k _ _ (containsSub_drop m _ _ (containsSub_drop n _ _ h)))
  simp only [matchFrom, hgen, Bool.false_eq_true, if_false, ite_self]

/-- Scanning a text with no `<obj>` marker yields no matches. -/
theorem scanRebel_eq_nil :
    ∀ (fuel : Nat) (s : List Char), containsSub s objMarker = false →
      scanRebel fuel s = [] := by
  intro fuel
  induction fuel with
  | zero => intro s _; rfl
  | succ fuel ih =>
    intro s h
    cases s with
    | nil => rfl
    | cons c rest =>
      simp only [scanRebel, matchFrom_eq_none h]
      exact ih rest (containsSub_tail h)

/-- **C8.** The parser never raises: it is a total function. A truncated
segment carries no `<obj>` marker, so a stream whose cleaned text contains
no `<obj>` marker anywhere (all segments truncated or malformed) yields no
record at all; and a well-formed segment is not suppressed by a truncated
neighbor: the spec instance — one well-formed triplet segment followed by
one truncated segment — yields exactly one parsed record. -/
theorem C8_parser_robustness :
    (∀ text : String,
        containsSub (cleanRebelText text).data objMarker = false →
        parse_rebel_output text = [])
    ∧ parse_rebel_output
        "<s><triplet> Alice <subj> Hawaii <obj> born in <triplet> Bob <subj> Paris</s>"
        = [⟨"Alice", "born in", "Hawaii"⟩] := by
  constructor
  · intro text h
    unfold parse_rebel_output
    dsimp only
    rw [scanRebel_eq_nil _ _ h]
    rfl
  · rfl

/-- Witness for C8: a single truncated segment (no object marker) parses to
no records and no error. -/
theorem C8_parser_robustness_witness :
    containsSub (cleanRebelText "<s><triplet> Bob <subj> Paris</s>").data objMarker
      = false
    ∧ parse_rebel_output "<s><triplet> Bob <subj> Paris</s>" = [] :=
  ⟨by decide,
    C8_parser_robustness.1 "<s><triplet> Bob <subj> Paris</s>" (by decide)⟩

end GraphEval
